import Mathlib

/-!
Verification development for the logo-scraper repository.

The repository harvests image candidates from a rendered web page,
scores each candidate with an additive heuristic (`scoreImage`), sorts
them with a comparator (`compareImages`), and selects a top logo
(`findTopLogo` in logoExtractor / combinedExtractor variants).  The
definitions below are shallow embeddings of the JavaScript source:
string operations are modelled on `List Char` so that every definition
is executable and kernel-reducible, JS `null`/`undefined` fields become
`Option`, and JS numbers that are only ever integers in the source
become `Nat`/`Int`.
-/

/-! ## String utilities (models of the JS string operations used) -/

/-- Model of matching a pattern at the start of a character list
(used for `String.prototype.startsWith` and as the inner step of
`String.prototype.includes`). -/
def charsMatchAt : List Char → List Char → Bool
  | [], _ => true
  | _ :: _, [] => false
  | p :: ps, s :: ss => p == s && charsMatchAt ps ss

/-- Model of `String.prototype.includes` on character lists: the pattern
occurs somewhere in the subject. -/
def charsContain (pat : List Char) : List Char → Bool
  | [] => charsMatchAt pat []
  | s :: ss => charsMatchAt pat (s :: ss) || charsContain pat ss

/-- JS `s.includes(pat)`. -/
def strIncludes (s pat : String) : Bool := charsContain pat.data s.data

/-- JS `s.startsWith(pat)`. -/
def strStartsWith (s pat : String) : Bool := charsMatchAt pat.data s.data

/-- JS `s.endsWith(pat)`. -/
def strEndsWith (s pat : String) : Bool := charsMatchAt pat.data.reverse s.data.reverse

/-- JS `s.toLowerCase()` (ASCII case folding, as all compared literals
in the source are ASCII). -/
def strLower (s : String) : String := String.mk (s.data.map Char.toLower)

/-- Splitting a character list on a separator character, JS
`String.prototype.split` semantics (`"".split(c) = [""]`,
`"a..b".split('.') = ["a","","b"]`). -/
def splitChar (c : Char) : List Char → List (List Char)
  | [] => [[]]
  | x :: xs =>
    let r := splitChar c xs
    if x == c then [] :: r
    else
      match r with
      | [] => [[x]]
      | h :: t => (x :: h) :: t

/-- JS `s.split(c)` for a single-character separator. -/
def strSplitChar (s : String) (c : Char) : List String :=
  (splitChar c s.data).map String.mk

/-- JS whitespace test used by `String.prototype.trim`. -/
def isJsSpace (c : Char) : Bool :=
  c == ' ' || c == '\t' || c == '\n' || c == '\r'

/-- JS `s.trim()`. -/
def strTrim (s : String) : String :=
  String.mk (((s.data.dropWhile isJsSpace).reverse.dropWhile isJsSpace).reverse)

/-- First-occurrence replacement on character lists; JS
`String.prototype.replace` with a plain (non-global) string pattern. -/
def replaceFirstChars (pat repl : List Char) : List Char → List Char
  | [] => []
  | c :: cs =>
    if charsMatchAt pat (c :: cs) then repl ++ (c :: cs).drop pat.length
    else c :: replaceFirstChars pat repl cs

/-- JS `s.replace(pat, repl)` for a plain string pattern (first
occurrence only). -/
def replaceFirst (s pat repl : String) : String :=
  String.mk (replaceFirstChars pat.data repl.data s.data)

/-- Drop everything up to and including the first occurrence of a
pattern; `none` if the pattern does not occur.  Used to model regexes
of the shape `/a.*b/`. -/
def dropThroughFirst (pat : List Char) : List Char → Option (List Char)
  | [] => if charsMatchAt pat [] then some [] else none
  | c :: cs =>
    if charsMatchAt pat (c :: cs) then some ((c :: cs).drop pat.length)
    else dropThroughFirst pat cs

/-- Model of a regex `/p1.*p2/` test: `p1` occurs and `p2` occurs after
it. -/
def strIncludesSeq (s pat1 pat2 : String) : Bool :=
  match dropThroughFirst pat1.data s.data with
  | some rest => charsContain pat2.data rest
  | none => false

/-- Model of a regex `/c{n,}/` test: the subject has a run of at least
`n` consecutive characters satisfying `p`.  `run` is the length of the
current run. -/
def hasRunAux (p : Char → Bool) (n : Nat) : Nat → List Char → Bool
  | run, [] => n ≤ run
  | run, c :: cs => if p c then (n ≤ run + 1) || hasRunAux p n (run + 1) cs else hasRunAux p n 0 cs

/-- Regex `/c{n,}/` on a string. -/
def hasRun (p : Char → Bool) (n : Nat) (s : String) : Bool := hasRunAux p n 0 s.data

/-- Lowercase hexadecimal digit, the character class `[0-9a-f]` (the
source applies it to lowercased filenames). -/
def isLowerHex (c : Char) : Bool := c.isDigit || ('a' ≤ c && c ≤ 'f')

/-- JS regex word character `\w`, i.e. `[A-Za-z0-9_]`. -/
def isWordChar (c : Char) : Bool := c.isAlphanum || c == '_'

/-- Try to match `tok` at the head of `s`, returning the remainder. -/
def matchTokRest : List Char → List Char → Option (List Char)
  | [], rest => some rest
  | _ :: _, [] => none
  | t :: ts, c :: cs => if t == c then matchTokRest ts cs else none

/-- Boundary test for `\b`: the neighbouring character (if any) is not a
word character. -/
def boundaryOk : Option Char → Bool
  | none => true
  | some c => !isWordChar c

/-- Scan for a `\btok\b` occurrence; `prev` is the character just before
the current position. -/
def hasWordTokenAux (tok : List Char) : Option Char → List Char → Bool
  | prev, l =>
    (boundaryOk prev &&
      (match matchTokRest tok l with
       | some rest => boundaryOk rest.head?
       | none => false)) ||
    (match l with
     | [] => false
     | c :: cs => hasWordTokenAux tok (some c) cs)

/-- Model of a regex `/\btok\b/` test. -/
def hasWordToken (tok : String) (s : String) : Bool :=
  hasWordTokenAux tok.data none s.data

/-- Regex `/^\d+$/`: nonempty and all digits. -/
def isAllDigits (s : String) : Bool := !(s == "") && s.data.all Char.isDigit

/-! ## URL model

The source relies on the browser `URL` class.  We model the subset it
exercises: absolute `scheme://host/path?search#hash` references.  A
string without a `://` separator fails to parse, which models the
`new URL(...)` exception path (`data:` URIs are special-cased where the
source's observable behaviour requires it). -/

/-- Split a character list at the first character from `stops`,
returning the part before and the rest (stop character included). -/
def breakAtChars (stops : List Char) : List Char → List Char × List Char
  | [] => ([], [])
  | c :: cs =>
    if stops.contains c then ([], c :: cs)
    else
      let r := breakAtChars stops cs
      (c :: r.1, r.2)

/-- Components of a parsed absolute URL (the fields of the JS `URL`
object that the source reads). -/
structure UrlParts where
  hostname : String
  pathname : String
  search : String
  hash : String
deriving DecidableEq, Repr

/-- Drop a leading `userinfo@` part from an authority. -/
def dropUserInfo (auth : List Char) : List Char :=
  if auth.contains '@' then ((splitChar '@' auth).getLastD []) else auth

/-- Drop a trailing `:port` from a host. -/
def dropPort (host : List Char) : List Char :=
  (splitChar ':' host).headD []

/-- Model of `new URL(s)` for absolute references.  Returns `none` when
the JS constructor would throw (no scheme separator). -/
def parseUrl (s : String) : Option UrlParts :=
  match dropThroughFirst "://".data s.data with
  | none => none
  | some rest =>
    if strStartsWith s "://" then none
    else
      let (auth, tail1) := breakAtChars ['/', '?', '#'] rest
      let host := dropPort (dropUserInfo auth)
      let (path, tail2) := breakAtChars ['?', '#'] tail1
      let (srch, hsh) := breakAtChars ['#'] tail2
      some
        { hostname := strLower (String.mk host)
          pathname := if path.isEmpty then "/" else String.mk path
          search := String.mk srch
          hash := String.mk hsh }

/-- JS `hostname.replace(/^www\./, '')`. -/
def stripWww (h : String) : String :=
  if strStartsWith h "www." then String.mk (h.data.drop 4) else h

/-! ## Data model: one discovered image candidate

JS `null`/`undefined` string fields become `Option String`; a JS falsy
test on such a field is `optTruthy` (both `null` and `""` are falsy).
`position` is absent for channels without a live element. -/

/-- Viewport rectangle of the originating element. -/
structure Position where
  top : Int
  left : Int
  right : Int
  bottom : Int
deriving DecidableEq, Repr

/-- One image candidate record as assembled by the harvest channels in
`extractAllImagesWithPage`. -/
structure ImgData where
  filename : String := ""
  url : String := ""
  extension : String := ""
  source : String := ""
  pathname : Option String := none
  alt : Option String := none
  className : Option String := none
  id : Option String := none
  parentClassName : Option String := none
  parentId : Option String := none
  width : Nat := 0
  height : Nat := 0
  position : Option Position := none
  isInHeader : Bool := false
  isInNav : Bool := false
  isInHomepageLink : Bool := false
  isOnlyImageInLink : Bool := false
  spriteFragment : Option String := none
  isLogoFragment : Bool := false
  logoScore : Option Int := none
  isFavicon : Bool := false
deriving DecidableEq, Repr

/-- JS truthiness of a nullable string field (`null`, `undefined` and
`""` are falsy). -/
def optTruthy : Option String → Bool
  | some s => !(s == "")
  | none => false

/-! ## Site identity -/

/-- The fixed common-subdomain list shared by every `getSiteName`
variant in the repository. -/
def commonSubdomains : List String :=
  ["www", "www2", "www3", "invest", "admin", "app", "api", "blog",
   "mail", "ftp", "cdn", "static", "assets", "media", "images", "img"]

/-- In-page copy of `getSiteName` (in `extractAllImagesWithPage`): takes
an already lowercased, `www.`-stripped domain and picks the brand
label. -/
def getSiteNameFromDomain (domain : String) : String :=
  if domain == "" then ""
  else
    let parts := strSplitChar domain '.'
    if 3 ≤ parts.length then
      let mainPart := parts.getD (parts.length - 2) ""
      let subdomainPart := parts.getD (parts.length - 3) ""
      if commonSubdomains.contains (strLower subdomainPart) then mainPart
      else if mainPart.length ≤ 2 || isAllDigits mainPart then subdomainPart
      else mainPart
    else if 2 ≤ parts.length then parts.headD ""
    else domain

/-- Module-level `getSiteName(url)` (siteHelpers / combinedExtractor):
parses the URL, lowercases the hostname, strips a leading `www.`, then
applies the same label-selection logic; a parse failure (the JS `catch`)
yields `""`. -/
def getSiteName (url : String) : String :=
  match parseUrl url with
  | none => ""
  | some u =>
    let domain := stripWww (strLower u.hostname)
    let parts := strSplitChar domain '.'
    if 3 ≤ parts.length then
      let mainPart := parts.getD (parts.length - 2) ""
      let subdomainPart := parts.getD (parts.length - 3) ""
      if commonSubdomains.contains (strLower subdomainPart) then mainPart
      else if mainPart.length ≤ 2 || isAllDigits mainPart then subdomainPart
      else mainPart
    else if 2 ≤ parts.length then parts.headD ""
    else domain

/-- In-page `getDomain(urlString)`: hostname of the URL, lowercased,
with a leading `www.` stripped; `''` on parse failure.  Relative
references resolve against the base URL (the second argument of the JS
`new URL`), and `data:` URIs parse with an empty hostname. -/
def getDomain (baseUrl : String) (urlString : String) : String :=
  if strStartsWith urlString "data:" then ""
  else
    match parseUrl urlString with
    | some u => stripWww u.hostname
    | none =>
      match parseUrl baseUrl with
      | some b => stripWww b.hostname
      | none => ""

/-- Site context closed over by the in-page `scoreImage`:
`siteDomain = getDomain(baseUrl)` and `siteName = getSiteName(siteDomain)`. -/
structure SiteCtx where
  baseUrl : String
  siteName : String
  siteDomain : String
deriving DecidableEq, Repr

/-- The site context exactly as the in-page script computes it. -/
def mkSiteCtx (baseUrl : String) : SiteCtx :=
  { baseUrl := baseUrl
    siteName := getSiteNameFromDomain (getDomain baseUrl baseUrl)
    siteDomain := getDomain baseUrl baseUrl }

/-! ## Scoring engine

`scoreImage` in the source is a sequence of independent `score +=`
updates; each block below is one of those groups, in source order, and
`scoreImage` is their sum. -/

/-- Lowercased URL of a candidate (`urlLower`). -/
def urlLower (img : ImgData) : String := strLower img.url

/-- Lowercased filename of a candidate (`filenameLower`). -/
def filenameLower (img : ImgData) : String := strLower img.filename

/-- Lowercased pathname (`imgData.pathname?.toLowerCase() || ''`). -/
def pathLower (img : ImgData) : String :=
  match img.pathname with
  | some p => strLower p
  | none => ""

/-- `filenameLower.includes('logo')`. -/
def hasLogoInFilename (img : ImgData) : Bool := strIncludes (filenameLower img) "logo"

/-- `pathLower.includes('logo')`. -/
def hasLogoInPath (img : ImgData) : Bool := strIncludes (pathLower img) "logo"

/-- The `hasSiteName` flag: site name (length > 2) occurs in filename,
URL or path, case-insensitively. -/
def hasSiteName (siteName : String) (img : ImgData) : Bool :=
  if 2 < siteName.length then
    let siteNameLower := strLower siteName
    strIncludes (filenameLower img) siteNameLower ||
    strIncludes (urlLower img) siteNameLower ||
    strIncludes (pathLower img) siteNameLower
  else false

/-- Site-name bonus group: +50 when the site name occurs, +15 more when
the filename starts with it (bare or followed by `-`/`_`). -/
def siteNameBonus (siteName : String) (img : ImgData) : Int :=
  if hasSiteName siteName img then
    let siteNameLower := strLower siteName
    50 +
      (if strStartsWith (filenameLower img) siteNameLower ||
          strStartsWith (filenameLower img) (siteNameLower ++ "-") ||
          strStartsWith (filenameLower img) (siteNameLower ++ "_") then (15 : Int) else 0)
  else 0

/-- Tokens of the `\b(edc|dif|partner|sponsor|affiliate|certified|certification)\b`
regex. -/
def orgNameTokens : List String :=
  ["edc", "dif", "partner", "sponsor", "affiliate", "certified", "certification"]

/-- `hasOtherOrgName`: the filename matches the organisation-token
regex. -/
def hasOtherOrgName (img : ImgData) : Bool :=
  orgNameTokens.any (fun t => hasWordToken t (filenameLower img))

/-- `hasStrongLogoIndicators`: alt, class or id (truthy) contains
`logo`. -/
def hasStrongLogoIndicators (img : ImgData) : Bool :=
  (optTruthy img.alt && strIncludes (strLower (img.alt.getD "")) "logo") ||
  (optTruthy img.className && strIncludes (strLower (img.className.getD "")) "logo") ||
  (optTruthy img.id && strIncludes (strLower (img.id.getD "")) "logo")

/-- Penalty group for `logo`-named files that lack the site name:
-30 with another organisation token, -20 without strong logo
indicators, -10 otherwise. -/
def noSiteNameLogoPenalty (siteName : String) (img : ImgData) : Int :=
  if !hasSiteName siteName img && 2 < siteName.length && hasLogoInFilename img then
    if hasOtherOrgName img then -30
    else if !hasStrongLogoIndicators img then -20
    else -10
  else 0

/-- The fixed third-party service list. -/
def thirdPartyServices : List String :=
  ["stripe", "paypal", "visa", "mastercard", "amex", "discover",
   "google", "facebook", "twitter", "linkedin", "instagram", "youtube",
   "microsoft", "apple", "amazon", "aws", "azure", "github", "gitlab",
   "slack", "zoom", "dropbox", "salesforce", "shopify", "woocommerce",
   "wordpress", "drupal", "joomla", "magento", "prestashop"]

/-- The per-service occurrence test shared by both third-party checks:
filename contains the token, or URL/path contains `/token`. -/
def svcMatches (img : ImgData) (service : String) : Bool :=
  strIncludes (filenameLower img) service ||
  strIncludes (urlLower img) ("/" ++ service) ||
  strIncludes (pathLower img) ("/" ++ service)

/-- `matchingThirdPartyService`: first listed service that occurs and
equals the site's own name. -/
def matchingThirdPartyService (siteName : String) (img : ImgData) : Option String :=
  thirdPartyServices.find? (fun service =>
    svcMatches img service && strLower service == strLower siteName)

/-- `hasThirdPartyName`: some listed service occurs and is not the
site's own name. -/
def hasThirdPartyName (siteName : String) (img : ImgData) : Bool :=
  thirdPartyServices.any (fun service =>
    svcMatches img service && !(strLower service == strLower siteName))

/-- Third-party penalty group: -40 only when a non-site service occurs
and no occurring service equals the site name.  (The subsequent
`matchingThirdPartyService` block in the source adds `score += 0` and is
omitted as a no-op.) -/
def thirdPartyPenalty (siteName : String) (img : ImgData) : Int :=
  if hasThirdPartyName siteName img && (matchingThirdPartyService siteName img).isNone then -40
  else 0

/-- Partner/ad/sponsor path segment penalty group (-30). -/
def partnerPathPenalty (img : ImgData) : Int :=
  if strIncludes (urlLower img) "/partners/" || strIncludes (urlLower img) "/partner/" ||
     strIncludes (urlLower img) "/ads/" || strIncludes (urlLower img) "/ad/" ||
     strIncludes (urlLower img) "/sponsors/" || strIncludes (urlLower img) "/sponsor/" ||
     strIncludes (urlLower img) "/advertisements/" || strIncludes (urlLower img) "/advertisement/" ||
     strIncludes (pathLower img) "/partners/" || strIncludes (pathLower img) "/partner/" ||
     strIncludes (pathLower img) "/ads/" || strIncludes (pathLower img) "/ad/" then -30
  else 0

/-- Hash-like filename penalty group: `/[0-9a-f]{20,}/` or `/\d{10,}/`
in the filename (-10). -/
def hashPenalty (img : ImgData) : Int :=
  if hasRun isLowerHex 20 (filenameLower img) || hasRun Char.isDigit 10 (filenameLower img) then -10
  else 0

/-- Vector-type source test (`inline-svg` or `svg-sprite`). -/
def isSvgSource (img : ImgData) : Bool :=
  img.source == "inline-svg" || img.source == "svg-sprite"

/-- Flat vector-source bonus group (+30). -/
def svgSourceBonus (img : ImgData) : Int := if isSvgSource img then 30 else 0

/-- Domain-affinity bonus group: +15 for same domain or subdomain, +10
for a CDN-style textual match (the JS `replace` rewrites only the first
`.`). -/
def domainBonus (ctx : SiteCtx) (img : ImgData) : Int :=
  let imageDomain := getDomain ctx.baseUrl img.url
  if !(imageDomain == "") && !(ctx.siteDomain == "") then
    (if imageDomain == ctx.siteDomain || strEndsWith imageDomain ("." ++ ctx.siteDomain) then (15 : Int) else 0) +
    (if strIncludes imageDomain (replaceFirst ctx.siteDomain "." "") ||
        strIncludes (urlLower img) (replaceFirst ctx.siteDomain "." "-") then (10 : Int) else 0)
  else 0

/-- `isInLogoDirectory`: URL or path contains a conventional asset/logo
directory token. -/
def isInLogoDirectory (img : ImgData) : Bool :=
  strIncludes (urlLower img) "/assets/" || strIncludes (urlLower img) "/images/" ||
  strIncludes (urlLower img) "/logo" || strIncludes (urlLower img) "/brand" ||
  strIncludes (pathLower img) "/assets/" || strIncludes (pathLower img) "/images/" ||
  strIncludes (pathLower img) "/logo" || strIncludes (pathLower img) "/brand"

/-- Lexical `logo` keyword bonus group: +10 for `logo` anywhere, +15
more for `logo` in the filename, with escalating sub-bonuses for
directory placement and canonical naming patterns. -/
def keywordBonus (img : ImgData) : Int :=
  if hasLogoInFilename img || hasLogoInPath img then
    10 +
      (if hasLogoInFilename img then
        15 +
          (if isInLogoDirectory img then (10 : Int) else 0) +
          (if strStartsWith (filenameLower img) "logo-" || strStartsWith (filenameLower img) "logo_" ||
              strIncludes (filenameLower img) "-logo" || strIncludes (filenameLower img) "_logo" ||
              filenameLower img == "logo.png" || filenameLower img == "logo.svg" then (10 : Int) else 0) +
          (if (strStartsWith (filenameLower img) "logo-" || strStartsWith (filenameLower img) "logo_") &&
              !hasRun isLowerHex 20 (filenameLower img) then (5 : Int) else 0) +
          (if strStartsWith (filenameLower img) "logo-full" || strStartsWith (filenameLower img) "logo-white" ||
              strStartsWith (filenameLower img) "logo-black" || strStartsWith (filenameLower img) "logo-color" ||
              strStartsWith (filenameLower img) "logo-main" || strStartsWith (filenameLower img) "logo-site" ||
              strStartsWith (filenameLower img) "logo-primary" then (10 : Int) else 0)
      else 0)
  else 0

/-- `isMainLogoDirectory` test. -/
def isMainLogoDirectory (img : ImgData) : Bool :=
  strIncludes (urlLower img) "/assets/images/" || strIncludes (urlLower img) "/assets/logo" ||
  strIncludes (urlLower img) "/images/logo" || strIncludes (urlLower img) "/static/images/" ||
  strIncludes (urlLower img) "/static/logo" ||
  strIncludes (pathLower img) "/assets/images/" || strIncludes (pathLower img) "/images/logo"

/-- Main-logo-directory bonus group (+15 when also named `logo`). -/
def mainLogoDirBonus (img : ImgData) : Int :=
  if isMainLogoDirectory img && hasLogoInFilename img then 15 else 0

/-- The `partnerIndicators` list. -/
def partnerIndicators : List String :=
  ["partner", "sponsor", "ad", "advertisement", "affiliate"]

/-- `hasPartnerIndicator` test. -/
def hasPartnerIndicator (img : ImgData) : Bool :=
  partnerIndicators.any (fun ind =>
    strIncludes (filenameLower img) ind || strIncludes (urlLower img) ("/" ++ ind ++ "/"))

/-- Partner-indicator-without-`logo` penalty group (-20). -/
def partnerIndicatorPenalty (img : ImgData) : Int :=
  if hasPartnerIndicator img && !hasLogoInFilename img then -20 else 0

/-- Secondary keyword bonus group: brand/header/site/company, +5
each. -/
def miscKeywordBonus (img : ImgData) : Int :=
  (if strIncludes (filenameLower img) "brand" || strIncludes (pathLower img) "brand" then (5 : Int) else 0) +
  (if strIncludes (filenameLower img) "header" || strIncludes (pathLower img) "header" then (5 : Int) else 0) +
  (if strIncludes (filenameLower img) "site" || strIncludes (pathLower img) "site" then (5 : Int) else 0) +
  (if strIncludes (filenameLower img) "company" || strIncludes (pathLower img) "company" then (5 : Int) else 0)

/-- Alt-text signal group. -/
def altBonus (siteName : String) (img : ImgData) : Int :=
  if optTruthy img.alt then
    let altLower := strLower (img.alt.getD "")
    (if strIncludes altLower "logo" then (15 : Int) else 0) +
    (if 2 < siteName.length && strIncludes altLower (strLower siteName) then (20 : Int) else 0) +
    (let altIsThirdParty := thirdPartyServices.any (fun service =>
        (altLower == service || strIncludes altLower service) &&
        !(strLower service == strLower siteName))
     if hasThirdPartyName siteName img && altIsThirdParty then (-15 : Int) else 0) +
    (if 0 < altLower.length && altLower.length < 50 && !strIncludes altLower " " &&
        (!hasThirdPartyName siteName img || altLower == strLower siteName) then (8 : Int) else 0) +
    (if strIncludes altLower "company" || strIncludes altLower "home" then (5 : Int) else 0)
  else 0

/-- Class part of the class/id signal group. -/
def classBonusPart (img : ImgData) : Int :=
  if optTruthy img.className then
    let classLower := strLower (img.className.getD "")
    if strIncludes classLower "logo" then 20
    else if strIncludes classLower "brand" || strIncludes classLower "site-identity" then 10
    else if strIncludes classLower "header" || strIncludes classLower "nav" then 5
    else 0
  else 0

/-- Id part of the class/id signal group. -/
def idBonusPart (img : ImgData) : Int :=
  if optTruthy img.id then
    let idLower := strLower (img.id.getD "")
    if strIncludes idLower "logo" then 20
    else if strIncludes idLower "brand" || strIncludes idLower "site-identity" then 10
    else if strIncludes idLower "header" || strIncludes idLower "nav" then 5
    else 0
  else 0

/-- Class/id signal group. -/
def classIdBonus (img : ImgData) : Int := classBonusPart img + idBonusPart img

/-- The `hasLogoInClassId` flag (set only by the `logo` branches of the
class and id checks). -/
def hasLogoInClassId (img : ImgData) : Bool :=
  (optTruthy img.className && strIncludes (strLower (img.className.getD "")) "logo") ||
  (optTruthy img.id && strIncludes (strLower (img.id.getD "")) "logo")

/-- Parent class/id signal group (+5 per field). -/
def parentBonus (img : ImgData) : Int :=
  (if optTruthy img.parentClassName &&
      (strIncludes (strLower (img.parentClassName.getD "")) "logo" ||
       strIncludes (strLower (img.parentClassName.getD "")) "brand" ||
       strIncludes (strLower (img.parentClassName.getD "")) "header" ||
       strIncludes (strLower (img.parentClassName.getD "")) "nav" ||
       strIncludes (strLower (img.parentClassName.getD "")) "site-identity") then (5 : Int) else 0) +
  (if optTruthy img.parentId &&
      (strIncludes (strLower (img.parentId.getD "")) "logo" ||
       strIncludes (strLower (img.parentId.getD "")) "brand" ||
       strIncludes (strLower (img.parentId.getD "")) "header" ||
       strIncludes (strLower (img.parentId.getD "")) "nav" ||
       strIncludes (strLower (img.parentId.getD "")) "site-identity") then (5 : Int) else 0)

/-- Viewport position signal group. -/
def positionBonus (img : ImgData) : Int :=
  match img.position with
  | some pos =>
    (if pos.top < 200 then (8 : Int) else 0) +
    (if pos.top < 100 then (5 : Int) else 0) +
    (if pos.left < 100 then (5 : Int) else 0) +
    (if pos.top < 200 && pos.left < 200 && hasLogoInClassId img then (5 : Int) else 0)
  | none => 0

/-- Geometry signal group (both dimensions truthy). -/
def sizeScore (img : ImgData) : Int :=
  if !(img.width == 0) && !(img.height == 0) then
    (if 100 ≤ img.width && img.width ≤ 400 then (5 : Int) else 0) +
    (if 100 ≤ img.height && img.height ≤ 400 then (3 : Int) else 0) +
    (if img.height ≤ img.width && img.width ≤ 3 * img.height then (5 : Int) else 0) +
    (if img.width < 50 || img.height < 50 then (-3 : Int) else 0) +
    (if 800 < img.width || 800 < img.height then
      (if !hasLogoInClassId img && !optTruthy img.alt then (-3 : Int) else -1)
    else 0)
  else 0

/-- Structural context signal group. -/
def contextBonus (img : ImgData) : Int :=
  (if img.isInHeader then (10 : Int) else 0) +
  (if img.isInNav then (8 : Int) else 0) +
  (if img.isInHomepageLink then (10 : Int) else 0) +
  (if img.isOnlyImageInLink then (5 : Int) else 0)

/-- Extra vector-in-prominent-position signal group. -/
def svgContextBonus (img : ImgData) : Int :=
  if isSvgSource img then
    (if img.isInHeader || img.isInNav then (10 : Int) else 0) +
    (match img.position with
     | some pos => if pos.top < 200 && pos.left < 200 then (8 : Int) else 0
     | none => 0) +
    (if img.isInHomepageLink then (10 : Int) else 0)
  else 0

/-- The in-page `scoreImage(imgData)`: the sum of every `score +=`
group, in source order. -/
def scoreImage (ctx : SiteCtx) (img : ImgData) : Int :=
  siteNameBonus ctx.siteName img +
  noSiteNameLogoPenalty ctx.siteName img +
  thirdPartyPenalty ctx.siteName img +
  partnerPathPenalty img +
  hashPenalty img +
  svgSourceBonus img +
  domainBonus ctx img +
  keywordBonus img +
  mainLogoDirBonus img +
  partnerIndicatorPenalty img +
  miscKeywordBonus img +
  altBonus ctx.siteName img +
  classIdBonus img +
  parentBonus img +
  positionBonus img +
  sizeScore img +
  contextBonus img +
  svgContextBonus img

/-! ## Ranking comparator (the `imageList.sort` comparator in
`extractAllImagesWithPage`) -/

/-- The `sourcePriority` table of the in-page sort. -/
def sourcePriorityList : List (String × Int) :=
  [("img-tag", 1), ("inline-svg", 1), ("svg-sprite", 1),
   ("css-background", 2), ("inline-style", 3),
   ("html-source", 4), ("html-source-sprite", 4), ("data-attribute", 5)]

/-- `sourcePriority[src] || 99`. -/
def sourcePriorityOf (src : String) : Int :=
  (List.lookup src sourcePriorityList).getD 99

/-- The comparator helper `hasSiteNameInImage`: site name (length > 2)
occurs in the candidate's filename or URL, case-insensitively. -/
def hasSiteNameInImage (siteName : String) (img : ImgData) : Bool :=
  if siteName.length ≤ 2 then false
  else
    let siteNameLower := strLower siteName
    strIncludes (strLower img.filename) siteNameLower ||
    strIncludes (strLower img.url) siteNameLower

/-- Tail of the comparator after the tie-band check: score difference,
then source priority (`if (b.logoScore !== a.logoScore) return b - a`,
fall through to priority). -/
def compareScoreTail (sa sb : Int) (a b : ImgData) : Int :=
  if sb = sa then sourcePriorityOf a.source - sourcePriorityOf b.source
  else sb - sa

/-- The in-page ranking comparator: site-name partition first, then the
15-point vector tie band, then score descending, then source priority.
A negative result places `a` strictly ahead of `b`. -/
def compareImages (siteName : String) (a b : ImgData) : Int :=
  let aHasSiteName := hasSiteNameInImage siteName a
  let bHasSiteName := hasSiteNameInImage siteName b
  if aHasSiteName && !bHasSiteName then -1
  else if bHasSiteName && !aHasSiteName then 1
  else
    match a.logoScore, b.logoScore with
    | some sa, some sb =>
      if (sb - sa).natAbs ≤ 15 then
        if isSvgSource a && !isSvgSource b then -1
        else if isSvgSource b && !isSvgSource a then 1
        else compareScoreTail sa sb a b
      else compareScoreTail sa sb a b
    | _, _ => sourcePriorityOf a.source - sourcePriorityOf b.source

/-! ## Harvest state machine

`extractAllImagesWithPage` builds `imageList` and `seenUrls` by walking
the DOM channel by channel.  We model the walk as a fold over discovery
events.  Every channel except the `<use>`-sprite one follows the same
pattern — check `seenUrls`, add the URL, push the record when the
channel's validity filter accepts it — and is modelled by `plainStep`;
the `<use>`-sprite channel (2b) with its replace logic is modelled in
full by `spriteStep`.  `entry.url` is the channel's `normalizeUrl`
output, and `norm` stands for the `normalizeUrl` closure. -/

/-- The shared state of one harvest run. -/
structure HarvestState where
  imageList : List ImgData
  seenUrls : List String
deriving DecidableEq, Repr

/-- One `<use>`-sprite discovery: the raw `href`/`xlink:href` attribute
plus the metadata of the nearest enclosing `svg` element.
`inHeaderCtx`/`inLogoClassCtx` are the `svg.closest('[class*="header"]')`
and `svg.closest('[class*="logo"]')` tests; `hasParentSvg` is the
`useEl.closest('svg')` guard; `meta` carries the element-derived fields
of the record the channel assembles. -/
structure SpriteEvent where
  rawHref : String
  hasParentSvg : Bool
  inHeaderCtx : Bool
  inLogoClassCtx : Bool
  meta : ImgData
deriving DecidableEq, Repr

/-- JS `Array.prototype.findIndex`, with `-1` rendered as `none`. -/
def jsFindIndex (p : ImgData → Bool) : List ImgData → Option Nat
  | [] => none
  | x :: xs => if p x then some 0 else (jsFindIndex p xs).map (· + 1)

/-- JS `Array.prototype.splice(i, 1)`. -/
def jsSplice1 (l : List ImgData) (i : Nat) : List ImgData := l.eraseIdx i

/-- The common channel pattern: `if (!seenUrls.has(url)) { seenUrls.add(url);
if (valid) imageList.push(entry); }` — `valid` is the channel's
extension/path filter on the entry. -/
def plainStep (st : HarvestState) (entry : ImgData) (valid : Bool) : HarvestState :=
  if st.seenUrls.contains entry.url then st
  else
    { imageList := if valid then st.imageList ++ [entry] else st.imageList
      seenUrls := entry.url :: st.seenUrls }

/-- JS `spriteUrl.includes('#') ? spriteUrl.split('#')[1] : null`. -/
def spriteFragment (rawHref : String) : Option String :=
  if strIncludes rawHref "#" then some ((strSplitChar rawHref '#').getD 1 "") else none

/-- JS `fragment && (fragment.toLowerCase().includes('logo') || ...)`
coerced to a boolean. -/
def spriteIsLogoFragment (rawHref : String) : Bool :=
  match spriteFragment rawHref with
  | some f =>
    !(f == "") &&
      (strIncludes (strLower f) "logo" || strIncludes (strLower f) "fw" ||
       strIncludes (strLower f) "brand")
  | none => false

/-- JS `spriteUrl.split('#')[0].trim()`. -/
def spriteFileUrl (rawHref : String) : String :=
  strTrim ((strSplitChar rawHref '#').headD "")

/-- The predicate of the channel's `findIndex`: same URL, discovered by
a markup-scan channel. -/
def spriteExistingPred (normalizedUrl : String) (img : ImgData) : Bool :=
  img.url == normalizedUrl &&
    (img.source == "html-source-sprite" || img.source == "html-source")

/-- The `<use>`-sprite channel step (`svg use` loop of
`extractAllImagesWithPage`), including the `shouldAdd`/`shouldReplace`
logic and the `+25` logo-fragment score bump. -/
def spriteStep (ctx : SiteCtx) (norm : String → String) (st : HarvestState)
    (ev : SpriteEvent) : HarvestState :=
  if strTrim ev.rawHref == "" then st
  else
    let fragment := spriteFragment ev.rawHref
    let isLogoFragment := spriteIsLogoFragment ev.rawHref
    let fileUrl := spriteFileUrl ev.rawHref
    if fileUrl == "" || strStartsWith fileUrl "#" then st
    else if !(strStartsWith fileUrl "/" || strStartsWith fileUrl "./" ||
              strStartsWith fileUrl "../" || strStartsWith fileUrl "http") then st
    else
      let normalizedUrl := norm fileUrl
      if !ev.hasParentSvg then st
      else
        let existingIndex := jsFindIndex (spriteExistingPred normalizedUrl) st.imageList
        let shouldAdd := !st.seenUrls.contains normalizedUrl
        let shouldReplace :=
          existingIndex.isSome && (isLogoFragment || ev.inHeaderCtx || ev.inLogoClassCtx)
        if shouldAdd || shouldReplace then
          let afterRemove :=
            if shouldReplace then
              match existingIndex with
              | some i => jsSplice1 st.imageList i
              | none => st.imageList
            else st.imageList
          let seen2 :=
            if st.seenUrls.contains normalizedUrl then st.seenUrls
            else normalizedUrl :: st.seenUrls
          let spriteData : ImgData :=
            { ev.meta with
                url := normalizedUrl
                source := "svg-sprite"
                extension := "svg"
                spriteFragment := fragment
                isLogoFragment := isLogoFragment
                logoScore := none }
          let scored :=
            { spriteData with
                logoScore :=
                  some (scoreImage ctx spriteData + if isLogoFragment then 25 else 0) }
          { imageList := afterRemove ++ [scored], seenUrls := seen2 }
        else st

/-- One discovery event of a harvest run. -/
inductive HarvestEvent where
  | plain (entry : ImgData) (valid : Bool)
  | sprite (ev : SpriteEvent)
deriving DecidableEq

/-- Dispatch one event. -/
def harvestStep (ctx : SiteCtx) (norm : String → String) (st : HarvestState) :
    HarvestEvent → HarvestState
  | .plain entry valid => plainStep st entry valid
  | .sprite ev => spriteStep ctx norm st ev

/-- A whole harvest run from the empty state. -/
def runHarvest (ctx : SiteCtx) (norm : String → String)
    (events : List HarvestEvent) : HarvestState :=
  events.foldl (harvestStep ctx norm) ⟨[], []⟩

/-! ## Favicon fallback and the logoExtractor selector -/

/-- The record pushed by the favicon fallback in
`extractAllImagesWithPage`. -/
def faviconEntry (faviconUrl : String) : ImgData :=
  { filename := "favicon.ico"
    url := faviconUrl
    extension := "ico"
    source := "favicon"
    logoScore := some 0
    isFavicon := true }

/-- The favicon append after the in-page evaluation: push a score-0
favicon record unless the URL is falsy or already present. -/
def addFavicon (images : List ImgData) (faviconUrl : Option String) : List ImgData :=
  match faviconUrl with
  | none => images
  | some fu =>
    if fu == "" then images
    else if images.any (fun img => img.url == fu) then images
    else images ++ [faviconEntry fu]

/-- `img.logoScore !== undefined && img.logoScore > 0`. -/
def isViable (img : ImgData) : Bool :=
  match img.logoScore with
  | some s => decide (0 < s)
  | none => false

/-- Score key used by the selector sorts (every element it is applied
to has a defined score). -/
def scoreKey (img : ImgData) : Int := img.logoScore.getD 0

/-- Stable insertion used to model the JS stable sort by
`b.logoScore - a.logoScore` (descending). -/
def insertByScore (x : ImgData) : List ImgData → List ImgData
  | [] => [x]
  | y :: ys => if scoreKey y ≤ scoreKey x then x :: y :: ys else y :: insertByScore x ys

/-- Stable descending sort by score. -/
def sortByScoreDesc (l : List ImgData) : List ImgData := l.foldr insertByScore []

/-- The strongest-evidence short-circuit of `findTopLogo`: css
background, inline SVG data URI, `logo` class, header region. -/
def cssBgShortCircuit (img : ImgData) : Bool :=
  img.source == "css-background" &&
  (!(img.url == "") && strStartsWith img.url "data:image/svg+xml") &&
  (optTruthy img.className && strIncludes (strLower (img.className.getD "")) "logo") &&
  img.isInHeader

/-- `findTopLogo(images, siteName)` (siteHelpers / combinedExtractor
`part_006` variant): filter to score > 0, sort descending, css
background short-circuit, site-name pass, else highest score. -/
def findTopLogo (images : List ImgData) (siteName : String) : Option ImgData :=
  let scoredImages := images.filter isViable
  if scoredImages.isEmpty then none
  else
    let sorted := sortByScoreDesc scoredImages
    match sorted.find? cssBgShortCircuit with
    | some img => some img
    | none =>
      match
        (if 2 < siteName.length then
          sorted.find? (fun img =>
            strIncludes (strLower img.filename) (strLower siteName) ||
            strIncludes (strLower img.url) (strLower siteName))
        else none) with
      | some img => some img
      | none => sorted.head?

/-! ## combinedExtractor validation and selector -/

/-- The `invalidPatterns` loop of `isValidImageUrl` (all patterns carry
the `i` flag, so the URL is lowercased once): HTML-entity quotes,
URL-encoded JSON braces, JSON array notation, JSON metadata keys. -/
def invalidPatternHit (url : String) : Bool :=
  let l := strLower url
  strIncludes l "&quot;" ||
  strIncludesSeq l "%7b" "%7d" ||
  strIncludesSeq l "[0," "]" ||
  strIncludes l "site-meta" ||
  strIncludes l "ecommercetype"

/-- The case-sensitive JSON-ish test applied to `search + hash`
(`/&quot;|%7B|\[0,/`). -/
def jsonLikeQueryHit (s : String) : Bool :=
  strIncludes s "&quot;" || strIncludes s "%7B" || strIncludes s "[0,"

/-- `isValidImageUrl(url)` from combinedExtractor. -/
def isValidImageUrl (url : String) : Bool :=
  if url == "" then false
  else if !(strStartsWith url "http://" || strStartsWith url "https://") then false
  else if invalidPatternHit url then false
  else
    match parseUrl url with
    | none => false
    | some u =>
      if u.hostname == "" then false
      else if u.pathname == "/" && (!(u.search == "") || !(u.hash == "")) then
        !jsonLikeQueryHit (u.search ++ u.hash)
      else true

/-- `normalizeForMatching(text)`: lowercase and keep only `[a-z0-9]`. -/
def normalizeForMatching (text : String) : String :=
  String.mk ((strLower text).data.filter (fun c => ('a' ≤ c && c ≤ 'z') || c.isDigit))

/-- `hasSiteNameAndLogoInUrl(url, siteName)`: the normalized URL path
contains both the normalized site name and `logo`. -/
def hasSiteNameAndLogoInUrl (url siteName : String) : Bool :=
  if siteName.length < 2 || url == "" then false
  else
    match parseUrl url with
    | none => false
    | some u =>
      let normalizedPath := normalizeForMatching (strLower u.pathname)
      strIncludes normalizedPath (normalizeForMatching siteName) &&
      strIncludes normalizedPath "logo"

/-- JS `reduce((prev, cur) => prev.logoScore > cur.logoScore ? prev : cur)`
starting from the first element. -/
def maxByScore (x : ImgData) (xs : List ImgData) : ImgData :=
  xs.foldl (fun prev cur => if scoreKey cur < scoreKey prev then prev else cur) x

/-- The same reduce, total on lists (`none` on the empty list, which the
source never reaches thanks to its length guards). -/
def reduceMaxScore : List ImgData → Option ImgData
  | [] => none
  | x :: xs => some (maxByScore x xs)

/-- `findTopLogo(images, siteName)` from combinedExtractor: valid-URL
filter, then site-name-and-logo path tier, site-name filename tier,
`logo` keyword tier, highest score fallback. -/
def findTopLogoCombined (images : List ImgData) (siteName : String) : Option ImgData :=
  let validScoredImages :=
    images.filter (fun img => isViable img && isValidImageUrl img.url)
  if validScoredImages.isEmpty then none
  else
    match
      (if 2 < siteName.length then
        reduceMaxScore (validScoredImages.filter (fun img =>
          hasSiteNameAndLogoInUrl img.url siteName))
      else none) with
    | some img => some img
    | none =>
      match
        (if 2 < siteName.length then
          validScoredImages.find? (fun img =>
            strIncludes (normalizeForMatching img.filename) (normalizeForMatching siteName) ||
            strIncludes (strLower img.filename) (strLower siteName))
        else none) with
      | some img => some img
      | none =>
        match
          reduceMaxScore (validScoredImages.filter (fun img =>
            strIncludes (strLower img.url) "logo" ||
            strIncludes (strLower img.filename) "logo")) with
        | some img => some img
        | none => reduceMaxScore validScoredImages

/-! ## Navigation fallback models

`navigateWithFallback` exists in two variants.  We model each as a
function from the success/failure of the successive `page.goto`
attempts to the trace of attempts made; `graceWait` is the
`waitForTimeout` that runs after a successful `goto` at that tier, and
the boolean result is `false` when the final attempt also throws. -/

/-- Playwright `waitUntil` condition. -/
inductive WaitCond where
  | networkidle
  | load
  | domcontentloaded
deriving DecidableEq, Repr

/-- One navigation attempt of the fallback chain. -/
structure NavAttempt where
  cond : WaitCond
  graceWait : Nat
deriving DecidableEq, Repr

/-- The imageExtractor variant (`src/unnamed/part_000`): `networkidle`
(no wait), then `load` (+`waitAfter`), then `domcontentloaded`
(+`waitAfter * 2`). -/
def navigateWithFallbackImage (waitAfter : Nat) (ok1 ok2 ok3 : Bool) :
    List NavAttempt × Bool :=
  if ok1 then ([⟨.networkidle, 0⟩], true)
  else if ok2 then ([⟨.networkidle, 0⟩, ⟨.load, waitAfter⟩], true)
  else
    ([⟨.networkidle, 0⟩, ⟨.load, waitAfter⟩, ⟨.domcontentloaded, waitAfter * 2⟩], ok3)

/-- The logoExtractor variant (`src/test.js`): `load` first, then
`domcontentloaded` twice, each followed by the same `waitAfter`. -/
def navigateWithFallbackLogo (waitAfter : Nat) (ok1 ok2 ok3 : Bool) :
    List NavAttempt × Bool :=
  if ok1 then ([⟨.load, waitAfter⟩], true)
  else if ok2 then ([⟨.load, waitAfter⟩, ⟨.domcontentloaded, waitAfter⟩], true)
  else
    ([⟨.load, waitAfter⟩, ⟨.domcontentloaded, waitAfter⟩, ⟨.domcontentloaded, waitAfter⟩], ok3)

/-! ## Claim theorems -/

/-- C1: site-identity override in the ranking comparator.  Whenever the
site name has length > 2 and exactly one of two candidates contains it
(case-insensitively) in its filename or URL, the comparator places that
candidate strictly ahead (returns -1 / 1), regardless of the two
scores. -/
theorem siteNameOverridesScoreInComparator (siteName : String) (a b : ImgData)
    (hlen : 2 < siteName.length)
    (ha : (strIncludes (strLower a.filename) (strLower siteName) ||
           strIncludes (strLower a.url) (strLower siteName)) = true)
    (hb : (strIncludes (strLower b.filename) (strLower siteName) ||
           strIncludes (strLower b.url) (strLower siteName)) = false) :
    compareImages siteName a b = -1 ∧ compareImages siteName b a = 1 := by
  have hA : hasSiteNameInImage siteName a = true := by
    simp only [hasSiteNameInImage]
    rw [if_neg (by omega)]
    exact ha
  have hB : hasSiteNameInImage siteName b = false := by
    simp only [hasSiteNameInImage]
    rw [if_neg (by omega)]
    exact hb
  constructor
  · simp [compareImages, hA, hB]
  · simp [compareImages, hA, hB]

/-- Candidate for the C1 witness that carries the site name with a low
score. -/
def siteNameCandidate : ImgData :=
  { filename := "acme-logo.png", url := "https://acme.com/acme-logo.png",
    source := "img-tag", logoScore := some 5 }

/-- Candidate for the C1 witness without the site name but with a much
larger score. -/
def noSiteNameCandidate : ImgData :=
  { filename := "partner.png", url := "https://elsewhere.example/partner.png",
    source := "img-tag", logoScore := some 50 }

/-- Witness for C1: the score-5 site-name candidate is placed ahead of
the score-50 candidate without the site name. -/
theorem siteNameOverridesScoreInComparator_witness :
    compareImages "acme" siteNameCandidate noSiteNameCandidate = -1 ∧
    compareImages "acme" noSiteNameCandidate siteNameCandidate = 1 :=
  siteNameOverridesScoreInComparator "acme" siteNameCandidate noSiteNameCandidate
    (by decide) (by decide) (by decide)

/-- C2: vector preference inside the 15-point tie band.  With equal
site-name status, a vector candidate is placed ahead whenever the score
gap is at most 15; with a gap above 15, the higher-scoring candidate
stays ahead. -/
theorem vectorTieBandPreference (siteName : String) (a b : ImgData) (sa sb : Int)
    (hsite : hasSiteNameInImage siteName a = hasSiteNameInImage siteName b)
    (hsa : a.logoScore = some sa) (hsb : b.logoScore = some sb)
    (hav : isSvgSource a = true) (hbv : isSvgSource b = false) :
    ((sb - sa).natAbs ≤ 15 →
      compareImages siteName a b = -1 ∧ compareImages siteName b a = 1) ∧
    (15 < (sb - sa).natAbs → sa < sb →
      0 < compareImages siteName a b ∧ compareImages siteName b a < 0) := by
  have hgate1 : (hasSiteNameInImage siteName a && !hasSiteNameInImage siteName b) = false := by
    rw [hsite, Bool.and_not_self]
  have hgate2 : (hasSiteNameInImage siteName b && !hasSiteNameInImage siteName a) = false := by
    rw [hsite, Bool.and_not_self]
  constructor
  · intro hband
    constructor
    · simp only [compareImages, hgate1, hgate2, hsa, hsb]
      rw [if_neg (by simp), if_neg (by simp), if_pos hband]
      simp [hav, hbv]
    · simp only [compareImages, hgate1, hgate2, hsa, hsb]
      rw [if_neg (by simp), if_neg (by simp), if_pos (by omega)]
      simp [hav, hbv]
  · intro hgap hlt
    constructor
    · simp only [compareImages, hgate1, hgate2, hsa, hsb]
      rw [if_neg (by simp), if_neg (by simp), if_neg (by omega)]
      simp only [compareScoreTail]
      rw [if_neg (by omega)]
      omega
    · simp only [compareImages, hgate1, hgate2, hsa, hsb]
      rw [if_neg (by simp), if_neg (by simp), if_neg (by omega)]
      simp only [compareScoreTail]
      rw [if_neg (by omega)]
      omega

/-- Vector candidate with score 40 for the C2 witness. -/
def vectorCandidate40 : ImgData :=
  { filename := "mark.svg", url := "data:image/svg+xml;base64,TWFyaw==",
    source := "inline-svg", logoScore := some 40 }

/-- Raster candidate with score 50 for the C2 witness. -/
def rasterCandidate50 : ImgData :=
  { filename := "banner.png", url := "https://elsewhere.example/banner.png",
    source := "img-tag", logoScore := some 50 }

/-- Vector candidate with score 30 for the C2 witness (gap of 20 to the
raster candidate). -/
def vectorCandidate30 : ImgData :=
  { filename := "mark.svg", url := "data:image/svg+xml;base64,TWFyazI=",
    source := "inline-svg", logoScore := some 30 }

/-- Witness for C2: score-40 vector beats score-50 raster (gap 10), and
with a gap of 20 the raster stays ahead. -/
theorem vectorTieBandPreference_witness :
    (compareImages "acme" vectorCandidate40 rasterCandidate50 = -1 ∧
     compareImages "acme" rasterCandidate50 vectorCandidate40 = 1) ∧
    (0 < compareImages "acme" vectorCandidate30 rasterCandidate50 ∧
     compareImages "acme" rasterCandidate50 vectorCandidate30 < 0) :=
  ⟨(vectorTieBandPreference "acme" vectorCandidate40 rasterCandidate50 40 50
      (by decide) rfl rfl (by decide) (by decide)).1 (by decide),
   (vectorTieBandPreference "acme" vectorCandidate30 rasterCandidate50 30 50
      (by decide) rfl rfl (by decide) (by decide)).2 (by decide) (by decide)⟩

/-- C6: the selector returns `null` when no candidate scores above zero,
and an available favicon URL is appended as a score-0 `isFavicon`
record unless the same URL was already discovered. -/
theorem noViableCandidateAndFaviconFallback :
    (∀ (images : List ImgData) (siteName : String),
      (∀ img ∈ images, ∀ s : Int, img.logoScore = some s → s ≤ 0) →
      findTopLogo images siteName = none) ∧
    (∀ (images : List ImgData) (fu : String), ¬(fu = "") →
      ((∃ img ∈ images, img.url = fu) → addFavicon images (some fu) = images) ∧
      ((∀ img ∈ images, ¬(img.url = fu)) →
        addFavicon images (some fu) = images ++ [faviconEntry fu] ∧
        (faviconEntry fu).logoScore = some 0 ∧ (faviconEntry fu).isFavicon = true)) := by
  constructor
  · intro images siteName h
    have hfilter : images.filter isViable = [] := by
      rw [List.filter_eq_nil_iff]
      intro img hmem
      simp only [isViable]
      match hscore : img.logoScore with
      | none => simp
      | some s =>
        have := h img hmem s hscore
        simp only [decide_eq_true_eq]
        omega
    simp [findTopLogo, hfilter]
  · intro images fu hfu
    constructor
    · intro ⟨img, hmem, hurl⟩
      have hany : images.any (fun img => img.url == fu) = true :=
        List.any_eq_true.mpr ⟨img, hmem, by simp [hurl]⟩
      simp [addFavicon, hfu, hany]
    · intro hnone
      have hany : images.any (fun img => img.url == fu) = false := by
        rw [Bool.eq_false_iff]
        intro hcontra
        obtain ⟨img, hmem, heq⟩ := List.any_eq_true.mp hcontra
        exact hnone img hmem (by simpa using heq)
      refine ⟨by simp [addFavicon, hfu, hany], rfl, rfl⟩

/-- Negative-scoring candidate for the C6 witness. -/
def penalizedCandidate : ImgData :=
  { filename := "stripe-badge.png", url := "https://acme.com/partners/stripe-badge.png",
    source := "img-tag", logoScore := some (-5) }

/-- Witness for C6: a list whose only candidate scores below zero
selects nothing, and the favicon URL is appended as the score-0
fallback record. -/
theorem noViableCandidateAndFaviconFallback_witness :
    findTopLogo [penalizedCandidate] "acme" = none ∧
    addFavicon [penalizedCandidate] (some "https://acme.com/favicon.ico") =
      [penalizedCandidate] ++ [faviconEntry "https://acme.com/favicon.ico"] :=
  ⟨noViableCandidateAndFaviconFallback.1 [penalizedCandidate] "acme"
      (by intro img hmem s hs
          simp only [List.mem_singleton] at hmem
          subst hmem
          simp only [penalizedCandidate, Option.some.injEq] at hs
          omega),
   ((noViableCandidateAndFaviconFallback.2 [penalizedCandidate] "https://acme.com/favicon.ico"
      (by decide)).2 (by decide)).1⟩

/-- C9 counterexample: the logoExtractor `navigateWithFallback` does not
attempt `networkidle` at all — its tiers are `load`, then
`domcontentloaded` twice — and its grace waits are constant, so the
claimed networkidle-first, increasing-wait ladder is false for this
navigator. -/
theorem navigationTiers_counterexample :
    (navigateWithFallbackLogo 1000 false false true).1.map NavAttempt.cond =
      [WaitCond.load, WaitCond.domcontentloaded, WaitCond.domcontentloaded] ∧
    [WaitCond.load, WaitCond.domcontentloaded, WaitCond.domcontentloaded] ≠
      [WaitCond.networkidle, WaitCond.load, WaitCond.domcontentloaded] ∧
    (navigateWithFallbackLogo 1000 false false true).1.map NavAttempt.graceWait =
      [1000, 1000, 1000] := by
  decide

/-- C9 amended: only the imageExtractor variant implements the
`networkidle` → `load` → `domcontentloaded` ladder, with grace waits
0, `waitAfter`, `2 * waitAfter` (strictly increasing for positive
`waitAfter`); the logoExtractor variant attempts `load`, then
`domcontentloaded` twice, with a constant grace wait.  Both variants
always make a final `domcontentloaded` attempt instead of aborting
without one. -/
theorem navigationTiers (w : Nat) (hw : 0 < w) (o3 : Bool) :
    ((navigateWithFallbackImage w false false o3).1.map NavAttempt.cond =
        [WaitCond.networkidle, WaitCond.load, WaitCond.domcontentloaded] ∧
     (navigateWithFallbackImage w false false o3).1.map NavAttempt.graceWait = [0, w, w * 2] ∧
     0 < w ∧ w < w * 2 ∧
     ((navigateWithFallbackImage w false false o3).1.map NavAttempt.cond).getLast? =
        some WaitCond.domcontentloaded) ∧
    ((navigateWithFallbackLogo w false false o3).1.map NavAttempt.cond =
        [WaitCond.load, WaitCond.domcontentloaded, WaitCond.domcontentloaded] ∧
     (navigateWithFallbackLogo w false false o3).1.map NavAttempt.graceWait = [w, w, w] ∧
     ((navigateWithFallbackLogo w false false o3).1.map NavAttempt.cond).getLast? =
        some WaitCond.domcontentloaded) := by
  simp [navigateWithFallbackImage, navigateWithFallbackLogo, List.getLast?]
  omega

/-- Witness for the amended C9 at the imageExtractor default
`waitAfter = 2000`. -/
theorem navigationTiers_witness :
    (navigateWithFallbackImage 2000 false false false).1.map NavAttempt.graceWait =
      [0, 2000, 4000] :=
  (navigationTiers 2000 (by decide) false).1.2.1

/-! ## Substring helper lemmas -/

/-- A match at the head of a list is in particular an occurrence. -/
theorem charsContain_of_matchAt (pat l : List Char) (h : charsMatchAt pat l = true) :
    charsContain pat l = true := by
  cases l with
  | nil => simpa [charsContain] using h
  | cons x xs => simp [charsContain, h]

/-- Dropping the first character of the pattern preserves occurrence. -/
theorem charsContain_cons_pat (c : Char) (pat : List Char) :
    ∀ s : List Char, charsContain (c :: pat) s = true → charsContain pat s = true := by
  intro s
  induction s with
  | nil => simp [charsContain, charsMatchAt]
  | cons x xs ih =>
    intro h
    simp only [charsContain, Bool.or_eq_true] at h ⊢
    rcases h with h | h
    · simp only [charsMatchAt, Bool.and_eq_true] at h
      exact Or.inr (charsContain_of_matchAt pat xs h.2)
    · exact Or.inr (ih h)

/-- Data of a string with a single prepended character. -/
theorem data_slash_append (svc : String) : ("/" ++ svc).data = '/' :: svc.data := by
  cases svc
  rfl

/-- Containing `"/" ++ t` implies containing `t`. -/
theorem strIncludes_of_slash (s t : String) (h : strIncludes s ("/" ++ t) = true) :
    strIncludes s t = true := by
  simp only [strIncludes, data_slash_append] at h ⊢
  exact charsContain_cons_pat '/' t.data s.data h

/-- C4 counterexample input: the site is `stripe.com` and the candidate
URL also carries the third-party token `paypal` in its path. -/
def stripePaypalBadge : ImgData :=
  { filename := "stripe.png", url := "https://stripe.com/paypal/stripe.png",
    pathname := some "/paypal/stripe.png", source := "img-tag" }

/-- The same candidate with the `paypal` token removed. -/
def stripeCleanBadge : ImgData :=
  { filename := "stripe.png", url := "https://stripe.com/qaypal/stripe.png",
    pathname := some "/qaypal/stripe.png", source := "img-tag" }

/-- Site context for `https://stripe.com/`. -/
def stripeSiteCtx : SiteCtx := mkSiteCtx "https://stripe.com/"

/-- C4 counterexample: a candidate matching the non-site third-party
token `paypal` receives no penalty at all, because the site's own name
`stripe` also matches the list — its score equals the score of the
identical candidate without `paypal`.  The claim as stated demands a
penalty whenever a non-site token matches. -/
theorem thirdPartyPenalty_counterexample :
    (∃ svc ∈ thirdPartyServices,
        svcMatches stripePaypalBadge svc = true ∧ ¬(strLower svc = strLower "stripe")) ∧
    thirdPartyPenalty "stripe" stripePaypalBadge = 0 ∧
    scoreImage stripeSiteCtx stripePaypalBadge = scoreImage stripeSiteCtx stripeCleanBadge := by
  refine ⟨⟨"paypal", by decide, by decide, by decide⟩, by decide, by decide⟩

/-- C4 amended: the -40 third-party penalty applies exactly when some
listed token matches the candidate (token in filename, or `/token` in
URL or path) and is different from the site's own name, while no
matching listed token equals the site's own name — an own-name match
suppresses the penalty entirely, even when other third-party tokens
also match, and (for site names longer than 2 characters) such an
own-name match implies the site-identity flag of the scorer. -/
theorem thirdPartyPenaltySuppression (siteName : String) (img : ImgData) :
    (thirdPartyPenalty siteName img = 0 ∨ thirdPartyPenalty siteName img = -40) ∧
    (thirdPartyPenalty siteName img = -40 ↔
      (∃ svc ∈ thirdPartyServices,
          svcMatches img svc = true ∧ ¬(strLower svc = strLower siteName)) ∧
      ¬(∃ svc ∈ thirdPartyServices,
          svcMatches img svc = true ∧ strLower svc = strLower siteName)) ∧
    (2 < siteName.length → (matchingThirdPartyService siteName img).isSome = true →
      hasSiteName siteName img = true) := by
  refine ⟨?_, ?_, ?_⟩
  · simp only [thirdPartyPenalty]
    split
    · exact Or.inr rfl
    · exact Or.inl rfl
  · simp only [thirdPartyPenalty]
    constructor
    · intro h
      split at h
      · next hcond =>
        obtain ⟨hany, hnone⟩ : _ ∧ _ := by simpa using hcond
        refine ⟨?_, ?_⟩
        · obtain ⟨svc, hmem, hpred⟩ := List.any_eq_true.mp hany
          obtain ⟨hm, hne⟩ : _ ∧ _ := by simpa using hpred
          exact ⟨svc, hmem, hm, by simpa using hne⟩
        · rw [matchingThirdPartyService, List.find?_eq_none] at hnone
          rintro ⟨svc, hmem, hm, heq⟩
          exact hnone svc hmem (by simp [hm, heq])
      · exact absurd h (by decide)
    · rintro ⟨⟨svc, hmem, hm, hne⟩, hnot⟩
      have hany : hasThirdPartyName siteName img = true :=
        List.any_eq_true.mpr ⟨svc, hmem, by simp [hm, hne]⟩
      have hnone : (matchingThirdPartyService siteName img).isNone = true := by
        rw [Option.isNone_iff_eq_none, matchingThirdPartyService, List.find?_eq_none]
        intro x hx hpx
        obtain ⟨hxm, hxe⟩ : _ ∧ _ := by simpa using hpx
        exact hnot ⟨x, hx, hxm, by simpa using hxe⟩
      rw [if_pos (by simp [hany, hnone])]
  · intro hlen hsome
    obtain ⟨svc, hfind⟩ := Option.isSome_iff_exists.mp hsome
    have hmem : svc ∈ thirdPartyServices := List.mem_of_find?_eq_some hfind
    have hpred := List.find?_some hfind
    obtain ⟨hm, heq⟩ : _ ∧ _ := by simpa using hpred
    have heq' : strLower svc = strLower siteName := by simpa using heq
    have hlow : strLower svc = svc := by
      fin_cases hmem <;> decide
    have hsn : strLower siteName = svc := by rw [← heq', hlow]
    simp only [hasSiteName]
    rw [if_pos hlen]
    have hm' : (strIncludes (filenameLower img) svc = true ∨
        strIncludes (urlLower img) ("/" ++ svc) = true) ∨
        strIncludes (pathLower img) ("/" ++ svc) = true := by
      simpa [svcMatches] using hm
    rcases hm' with (hm | hm) | hm
    · simp [hsn, hm]
    · simp [hsn, strIncludes_of_slash _ _ hm]
    · simp [hsn, strIncludes_of_slash _ _ hm]

/-- C8: behaviour of `getSiteName`.  A URL that fails to parse yields
`""`; otherwise, with the hostname lowercased, `www.`-stripped and split
on `.`, a two-label hostname yields the first label, and a hostname
with at least three labels yields the label adjacent to the TLD except
when that label is at most two characters long or purely numeric and
the label before it is not in the common-subdomain list, in which case
the subdomain label is returned.  The function is total, so it never
throws. -/
theorem getSiteNameSpec :
    (∀ url, parseUrl url = none → getSiteName url = "") ∧
    (∀ url u domain parts, parseUrl url = some u →
      domain = stripWww (strLower u.hostname) →
      parts = strSplitChar domain '.' →
      (parts.length = 2 → getSiteName url = parts.headD "") ∧
      (3 ≤ parts.length →
        getSiteName url =
          (if ((parts.getD (parts.length - 2) "").length ≤ 2 ∨
                isAllDigits (parts.getD (parts.length - 2) "")) ∧
              ¬commonSubdomains.contains (strLower (parts.getD (parts.length - 3) "")) = true
           then parts.getD (parts.length - 3) ""
           else parts.getD (parts.length - 2) ""))) := by
  constructor
  · intro url hp
    simp [getSiteName, hp]
  · intro url u domain parts hp hd hparts
    subst hd
    subst hparts
    constructor
    · intro hlen2
      simp only [getSiteName, hp]
      rw [if_neg (by omega), if_pos (by omega)]
    · intro hlen3
      simp only [getSiteName, hp]
      rw [if_pos hlen3]
      by_cases hc : commonSubdomains.contains
          (strLower ((strSplitChar (stripWww (strLower u.hostname)) '.').getD
            ((strSplitChar (stripWww (strLower u.hostname)) '.').length - 3) "")) = true
      · rw [if_pos hc, if_neg (fun h => h.2 hc)]
      · rw [if_neg hc]
        by_cases hm : (((strSplitChar (stripWww (strLower u.hostname)) '.').getD
              ((strSplitChar (stripWww (strLower u.hostname)) '.').length - 2) "").length ≤ 2 ∨
            isAllDigits ((strSplitChar (stripWww (strLower u.hostname)) '.').getD
              ((strSplitChar (stripWww (strLower u.hostname)) '.').length - 2) "") = true)
        · rw [if_pos (by simpa using hm), if_pos ⟨hm, hc⟩]
        · rw [if_neg (by simpa using hm), if_neg (fun h => hm h.1)]

/-- Witness for C8: `invest.debrecen.hu` has three labels, `invest` is
in the common-subdomain list, and the adjacent-to-TLD label `debrecen`
is returned. -/
theorem getSiteNameSpec_witness : getSiteName "https://invest.debrecen.hu" = "debrecen" := by
  have h := ((getSiteNameSpec.2 "https://invest.debrecen.hu"
      ⟨"invest.debrecen.hu", "/", "", ""⟩ _ _ (by decide) rfl rfl).2 (by decide))
  rw [h]
  decide

/-! ## Monotonicity of the logo class signal -/

/-- A string whose lowercasing contains `logo` is nonempty. -/
theorem ne_empty_of_logo_token (cls : String) (h1 : strIncludes (strLower cls) "logo" = true) :
    (cls == "") = false := by
  by_cases hc : cls = ""
  · subst hc
    exact absurd h1 (by decide)
  · simp [hc]

/-- Adding a `logo` class turns on the `hasLogoInClassId` flag. -/
theorem hasLogoInClassId_update (img : ImgData) (cls : String)
    (h1 : strIncludes (strLower cls) "logo" = true) :
    hasLogoInClassId { img with className := some cls } = true := by
  have hne := ne_empty_of_logo_token cls h1
  simp [hasLogoInClassId, optTruthy, hne, h1]

/-- Adding a `logo` class turns on `hasStrongLogoIndicators`. -/
theorem hasStrongLogoIndicators_update (img : ImgData) (cls : String)
    (h1 : strIncludes (strLower cls) "logo" = true) :
    hasStrongLogoIndicators { img with className := some cls } = true := by
  have hne := ne_empty_of_logo_token cls h1
  simp [hasStrongLogoIndicators, optTruthy, hne, h1]

/-- The class part of the class/id group goes from 0 to 20. -/
theorem classBonusPart_update (img : ImgData) (cls : String)
    (h0 : img.className = none) (h1 : strIncludes (strLower cls) "logo" = true) :
    classBonusPart img = 0 ∧ classBonusPart { img with className := some cls } = 20 := by
  have hne := ne_empty_of_logo_token cls h1
  constructor
  · simp [classBonusPart, optTruthy, h0]
  · simp [classBonusPart, optTruthy, hne, h1]

/-- The no-site-name logo penalty can only shrink when a `logo` class is
added. -/
theorem noSiteNameLogoPenalty_update (sn : String) (img : ImgData) (cls : String)
    (h1 : strIncludes (strLower cls) "logo" = true) :
    noSiteNameLogoPenalty sn img ≤ noSiteNameLogoPenalty sn { img with className := some cls } := by
  have hsn : hasSiteName sn { img with className := some cls } = hasSiteName sn img := rfl
  have hfn : hasLogoInFilename { img with className := some cls } = hasLogoInFilename img := rfl
  have horg : hasOtherOrgName { img with className := some cls } = hasOtherOrgName img := rfl
  have hstrong := hasStrongLogoIndicators_update img cls h1
  simp only [noSiteNameLogoPenalty, hsn, hfn, horg, hstrong]
  split_ifs <;> first | omega | simp_all

/-- The position group can only grow when a `logo` class is added. -/
theorem positionBonus_update (img : ImgData) (cls : String)
    (h1 : strIncludes (strLower cls) "logo" = true) :
    positionBonus img ≤ positionBonus { img with className := some cls } := by
  have hflag := hasLogoInClassId_update img cls h1
  have hpos : ({ img with className := some cls } : ImgData).position = img.position := rfl
  cases hp : img.position with
  | none => simp [positionBonus, hpos, hp]
  | some pos =>
    simp only [positionBonus, hpos, hp, hflag]
    split_ifs <;> first | omega | simp_all

/-- The geometry group can only grow when a `logo` class is added. -/
theorem sizeScore_update (img : ImgData) (cls : String)
    (h1 : strIncludes (strLower cls) "logo" = true) :
    sizeScore img ≤ sizeScore { img with className := some cls } := by
  have hflag := hasLogoInClassId_update img cls h1
  simp only [sizeScore, hflag]
  split_ifs <;> first | omega | simp_all

/-- C5: adding a class containing `logo` to a candidate that has no
class strictly increases its score: the class/id group contributes 20
more, and every other class-dependent group (no-site-name penalty,
top-left position bonus, large-size penalty) can only grow. -/
theorem logoClassMonotonicity (ctx : SiteCtx) (img : ImgData) (cls : String)
    (h0 : img.className = none) (h1 : strIncludes (strLower cls) "logo" = true) :
    scoreImage ctx img < scoreImage ctx { img with className := some cls } := by
  obtain ⟨hc0, hc20⟩ := classBonusPart_update img cls h0 h1
  have hpen := noSiteNameLogoPenalty_update ctx.siteName img cls h1
  have hpos := positionBonus_update img cls h1
  have hsize := sizeScore_update img cls h1
  have e1 : siteNameBonus ctx.siteName { img with className := some cls }
      = siteNameBonus ctx.siteName img := rfl
  have e2 : thirdPartyPenalty ctx.siteName { img with className := some cls }
      = thirdPartyPenalty ctx.siteName img := rfl
  have e3 : partnerPathPenalty { img with className := some cls } = partnerPathPenalty img := rfl
  have e4 : hashPenalty { img with className := some cls } = hashPenalty img := rfl
  have e5 : svgSourceBonus { img with className := some cls } = svgSourceBonus img := rfl
  have e6 : domainBonus ctx { img with className := some cls } = domainBonus ctx img := rfl
  have e7 : keywordBonus { img with className := some cls } = keywordBonus img := rfl
  have e8 : mainLogoDirBonus { img with className := some cls } = mainLogoDirBonus img := rfl
  have e9 : partnerIndicatorPenalty { img with className := some cls }
      = partnerIndicatorPenalty img := rfl
  have e10 : miscKeywordBonus { img with className := some cls } = miscKeywordBonus img := rfl
  have e11 : altBonus ctx.siteName { img with className := some cls }
      = altBonus ctx.siteName img := rfl
  have e12 : idBonusPart { img with className := some cls } = idBonusPart img := rfl
  have e13 : parentBonus { img with className := some cls } = parentBonus img := rfl
  have e14 : contextBonus { img with className := some cls } = contextBonus img := rfl
  have e15 : svgContextBonus { img with className := some cls } = svgContextBonus img := rfl
  simp only [scoreImage, classIdBonus]
  omega

/-- Base record for the C5 witness: a raster candidate with no class. -/
def classlessCandidate : ImgData :=
  { filename := "header-art.png", url := "https://acme.com/images/header-art.png",
    pathname := some "/images/header-art.png", source := "img-tag",
    width := 200, height := 80, position := some ⟨40, 20, 220, 120⟩, isInHeader := true }

/-- Witness for C5: adding `class="site-logo"` strictly increases the
score of the candidate. -/
theorem logoClassMonotonicity_witness :
    scoreImage (mkSiteCtx "https://acme.com/") classlessCandidate <
      scoreImage (mkSiteCtx "https://acme.com/")
        { classlessCandidate with className := some "site-logo" } :=
  logoClassMonotonicity (mkSiteCtx "https://acme.com/") classlessCandidate "site-logo"
    (by decide) (by decide)

/-! ## Deduplication invariant of the harvest -/

/-- Membership form of the `seenUrls.has` test. -/
theorem contains_eq_true_iff (l : List String) (a : String) :
    l.contains a = true ↔ a ∈ l := by
  simp

/-- Specification of `jsFindIndex`: a returned index points at an
element satisfying the predicate. -/
theorem jsFindIndex_spec (p : ImgData → Bool) :
    ∀ (l : List ImgData) (i : Nat), jsFindIndex p l = some i →
      ∃ x, l[i]? = some x ∧ p x = true := by
  intro l
  induction l with
  | nil => intro i h; simp [jsFindIndex] at h
  | cons a t ih =>
    intro i h
    simp only [jsFindIndex] at h
    by_cases hp : p a = true
    · rw [if_pos hp] at h
      obtain rfl : (0 : Nat) = i := by simpa using h
      exact ⟨a, by simp, hp⟩
    · rw [if_neg hp] at h
      obtain ⟨j, hj, rfl⟩ := Option.map_eq_some'.mp h
      obtain ⟨x, hx, hpx⟩ := ih j hj
      exact ⟨x, by simpa using hx, hpx⟩

/-- Erasing an index commutes with mapping. -/
theorem map_eraseIdx_comm (f : ImgData → String) :
    ∀ (l : List ImgData) (i : Nat), (l.eraseIdx i).map f = (l.map f).eraseIdx i := by
  intro l
  induction l with
  | nil => intro i; cases i <;> rfl
  | cons a t ih =>
    intro i
    cases i with
    | zero => rfl
    | succ n => simp [List.eraseIdx, ih n]

/-- In a duplicate-free list, the value at an erased index is absent
from the erasure. -/
theorem not_mem_eraseIdx_of_nodup :
    ∀ (us : List String) (i : Nat) (u : String), us.Nodup → us[i]? = some u →
      u ∉ us.eraseIdx i := by
  intro us
  induction us with
  | nil => intro i u _ h; simp at h
  | cons a t ih =>
    intro i u hnd h
    cases i with
    | zero =>
      obtain rfl : a = u := by simpa using h
      simpa [List.eraseIdx] using (List.nodup_cons.mp hnd).1
    | succ n =>
      have ht : t[n]? = some u := by simpa using h
      intro hmem
      simp only [List.eraseIdx, List.mem_cons] at hmem
      rcases hmem with rfl | hmem
      · exact (List.nodup_cons.mp hnd).1 (List.getElem?_mem ht)
      · exact ih n u (List.nodup_cons.mp hnd).2 ht hmem

/-- Invariant of a harvest run: candidate URLs are pairwise distinct and
every listed URL has been recorded in `seenUrls`. -/
def harvestInv (st : HarvestState) : Prop :=
  (st.imageList.map (fun img => img.url)).Nodup ∧
  ∀ img ∈ st.imageList, img.url ∈ st.seenUrls

/-- Appending a record whose URL is unseen preserves the invariant once
the URL is recorded. -/
theorem harvestInv_push (st : HarvestState) (entry : ImgData) (hinv : harvestInv st)
    (hseen : entry.url ∉ st.seenUrls) :
    harvestInv ⟨st.imageList ++ [entry], entry.url :: st.seenUrls⟩ := by
  have hnotmem : entry.url ∉ st.imageList.map (fun img => img.url) := by
    intro hmem
    obtain ⟨img, hm, he⟩ := List.mem_map.mp hmem
    exact hseen (he ▸ hinv.2 img hm)
  constructor
  · rw [List.map_append]
    exact List.nodup_append.mpr
      ⟨hinv.1, List.nodup_singleton _, by
        intro a ha hb
        simp only [List.map_cons, List.map_nil, List.mem_singleton] at hb
        exact hnotmem (hb ▸ ha)⟩
  · intro img hm
    rcases List.mem_append.mp hm with hm | hm
    · exact List.mem_cons_of_mem _ (hinv.2 img hm)
    · simp only [List.mem_singleton] at hm
      subst hm
      exact List.mem_cons_self _ _

/-- Splicing out the unique record carrying a URL and appending a new
record with the same URL preserves the invariant. -/
theorem harvestInv_replace (st : HarvestState) (entry : ImgData) (i : Nat) (x : ImgData)
    (hinv : harvestInv st) (hx : st.imageList[i]? = some x) (hxu : x.url = entry.url)
    (hseen : entry.url ∈ st.seenUrls) :
    harvestInv ⟨st.imageList.eraseIdx i ++ [entry], st.seenUrls⟩ := by
  have hmapped : (st.imageList.map (fun img => img.url))[i]? = some entry.url := by
    rw [List.getElem?_map, hx]
    simp [hxu]
  have hnd : ((st.imageList.eraseIdx i).map (fun img => img.url)).Nodup := by
    rw [map_eraseIdx_comm]
    exact hinv.1.sublist (List.eraseIdx_sublist _ i)
  have hnotmem : entry.url ∉ (st.imageList.eraseIdx i).map (fun img => img.url) := by
    rw [map_eraseIdx_comm]
    exact not_mem_eraseIdx_of_nodup _ i entry.url hinv.1 hmapped
  constructor
  · rw [List.map_append]
    exact List.nodup_append.mpr
      ⟨hnd, List.nodup_singleton _, by
        intro a ha hb
        simp only [List.map_cons, List.map_nil, List.mem_singleton] at hb
        exact hnotmem (hb ▸ ha)⟩
  · intro img hm
    rcases List.mem_append.mp hm with hm | hm
    · exact hinv.2 img ((List.eraseIdx_sublist _ i).mem hm)
    · simp only [List.mem_singleton] at hm
      subst hm
      exact hseen

/-- `plainStep` preserves the invariant. -/
theorem plainStep_inv (st : HarvestState) (entry : ImgData) (valid : Bool)
    (hinv : harvestInv st) : harvestInv (plainStep st entry valid) := by
  by_cases hc : entry.url ∈ st.seenUrls
  · simpa [plainStep, hc] using hinv
  · have hcb : st.seenUrls.contains entry.url = false := by
      rw [Bool.eq_false_iff]
      intro h
      exact hc ((contains_eq_true_iff _ _).mp h)
    cases valid with
    | true =>
      simp only [plainStep, hcb]
      simpa using harvestInv_push st entry hinv hc
    | false =>
      simp only [plainStep, hcb]
      simp only [Bool.false_eq_true, if_false]
      exact ⟨hinv.1, fun img hm => List.mem_cons_of_mem _ (hinv.2 img hm)⟩

/-- `spriteStep` preserves the invariant. -/
theorem spriteStep_inv (ctx : SiteCtx) (norm : String → String) (st : HarvestState)
    (ev : SpriteEvent) (hinv : harvestInv st) : harvestInv (spriteStep ctx norm st ev) := by
  simp only [spriteStep]
  split
  · exact hinv
  · split
    · exact hinv
    · split
      · exact hinv
      · split
        · exact hinv
        · split
          · next hcond =>
            by_cases hseen : norm (spriteFileUrl ev.rawHref) ∈ st.seenUrls
            · have hsb : st.seenUrls.contains (norm (spriteFileUrl ev.rawHref)) = true :=
                (contains_eq_true_iff _ _).mpr hseen
              have hrepl :
                  ((jsFindIndex (spriteExistingPred (norm (spriteFileUrl ev.rawHref)))
                      st.imageList).isSome &&
                    (spriteIsLogoFragment ev.rawHref || ev.inHeaderCtx ||
                      ev.inLogoClassCtx)) = true := by
                rw [hsb] at hcond
                simpa using hcond
              have hsome :
                  (jsFindIndex (spriteExistingPred (norm (spriteFileUrl ev.rawHref)))
                    st.imageList).isSome = true := by
                obtain ⟨h1, _⟩ : _ ∧ _ := by simpa using hrepl
                exact h1
              obtain ⟨i, hi⟩ := Option.isSome_iff_exists.mp hsome
              obtain ⟨x, hx, hpx⟩ := jsFindIndex_spec _ st.imageList i hi
              have hxu : x.url = norm (spriteFileUrl ev.rawHref) := by
                obtain ⟨h1, _⟩ : _ ∧ _ := by simpa [spriteExistingPred] using hpx
                exact h1
              rw [hrepl, hi, hsb]
              simp only [if_true]
              exact harvestInv_replace st _ i x hinv hx hxu hseen
            · have hsb : st.seenUrls.contains (norm (spriteFileUrl ev.rawHref)) = false := by
                rw [Bool.eq_false_iff]
                intro h
                exact hseen ((contains_eq_true_iff _ _).mp h)
              have hnone :
                  jsFindIndex (spriteExistingPred (norm (spriteFileUrl ev.rawHref)))
                    st.imageList = none := by
                cases hfi : jsFindIndex (spriteExistingPred (norm (spriteFileUrl ev.rawHref)))
                    st.imageList with
                | none => rfl
                | some i =>
                  obtain ⟨x, hx, hpx⟩ := jsFindIndex_spec _ st.imageList i hfi
                  obtain ⟨h1, _⟩ : _ ∧ _ := by simpa [spriteExistingPred] using hpx
                  exact absurd (h1 ▸ hinv.2 x (List.getElem?_mem hx)) hseen
              rw [hnone, hsb]
              simp only [Option.isSome_none, Bool.false_and, Bool.false_eq_true, if_false]
              exact harvestInv_push st _ hinv hseen
          · exact hinv

/-- Every harvest step preserves the invariant. -/
theorem harvestStep_inv (ctx : SiteCtx) (norm : String → String) (st : HarvestState)
    (e : HarvestEvent) (hinv : harvestInv st) : harvestInv (harvestStep ctx norm st e) := by
  cases e with
  | plain entry valid => exact plainStep_inv st entry valid hinv
  | sprite ev => exact spriteStep_inv ctx norm st ev hinv

/-- The invariant holds after folding any event sequence. -/
theorem runHarvest_inv (ctx : SiteCtx) (norm : String → String) :
    ∀ (events : List HarvestEvent) (st : HarvestState), harvestInv st →
      harvestInv (events.foldl (harvestStep ctx norm) st) := by
  intro events
  induction events with
  | nil => intro st h; exact h
  | cons e es ih =>
    intro st h
    exact ih _ (harvestStep_inv ctx norm st e h)

/-- C3: deduplication invariant.  For every harvest run — any sequence
of discovery events over the seen-set-checking channels and the
`<use>`-sprite channel with its replace rule — the resulting candidate
list contains at most one entry per canonical URL. -/
theorem harvestDeduplication (ctx : SiteCtx) (norm : String → String)
    (events : List HarvestEvent) :
    ((runHarvest ctx norm events).imageList.map (fun img => img.url)).Nodup :=
  (runHarvest_inv ctx norm events ⟨[], []⟩ ⟨List.nodup_nil, by simp⟩).1

/-! ## Sprite replace rule -/

/-- C7: sprite replace-in-place rule.  When the `<use>` reference's
fragment suggests a logo, the guards pass, and the list already holds a
markup-scan candidate with the same canonical sprite-file URL at index
`i`, the step removes that entry and pushes a `svg-sprite` candidate
marked `isLogoFragment = true` carrying the sprite metadata. -/
theorem spriteReplaceRule (ctx : SiteCtx) (norm : String → String) (st : HarvestState)
    (ev : SpriteEvent) (frag : String) (i : Nat)
    (h1 : ¬(strTrim ev.rawHref = ""))
    (h2 : spriteFragment ev.rawHref = some frag)
    (h3 : strIncludes (strLower frag) "logo" = true)
    (h4 : ¬(spriteFileUrl ev.rawHref = ""))
    (h5 : strStartsWith (spriteFileUrl ev.rawHref) "#" = false)
    (h6 : (strStartsWith (spriteFileUrl ev.rawHref) "/" ||
           strStartsWith (spriteFileUrl ev.rawHref) "./" ||
           strStartsWith (spriteFileUrl ev.rawHref) "../" ||
           strStartsWith (spriteFileUrl ev.rawHref) "http") = true)
    (h7 : ev.hasParentSvg = true)
    (h8 : jsFindIndex (spriteExistingPred (norm (spriteFileUrl ev.rawHref)))
            st.imageList = some i) :
    (∃ x, st.imageList[i]? = some x ∧
        spriteExistingPred (norm (spriteFileUrl ev.rawHref)) x = true) ∧
    ∃ entry, (spriteStep ctx norm st ev).imageList = st.imageList.eraseIdx i ++ [entry] ∧
      entry.isLogoFragment = true ∧ entry.source = "svg-sprite" ∧
      entry.url = norm (spriteFileUrl ev.rawHref) ∧
      entry.spriteFragment = some frag := by
  have hlog : spriteIsLogoFragment ev.rawHref = true := by
    have hne := ne_empty_of_logo_token frag h3
    simp [spriteIsLogoFragment, h2, hne, h3]
  refine ⟨jsFindIndex_spec _ st.imageList i h8, ?_⟩
  simp only [spriteStep]
  rw [if_neg (by simpa using h1)]
  rw [if_neg (by simp [h4, h5])]
  rw [if_neg (by simp [h6])]
  rw [if_neg (by simp [h7])]
  rw [if_pos (by simp [h8, hlog])]
  rw [h8]
  simp only [hlog, Option.isSome_some, Bool.true_and, Bool.true_or, Bool.or_true]
  exact ⟨_, rfl, rfl, rfl, rfl, h2⟩

/-! ## The combinedExtractor selector only returns HTTP(S) candidates -/

/-- The element picked by the score reduce is in the reduced list. -/
theorem maxByScore_mem : ∀ (xs : List ImgData) (x : ImgData), maxByScore x xs ∈ x :: xs := by
  intro xs
  induction xs with
  | nil => intro x; simp [maxByScore]
  | cons y ys ih =>
    intro x
    have hstep : maxByScore x (y :: ys) =
        maxByScore (if scoreKey y < scoreKey x then x else y) ys := rfl
    rw [hstep]
    by_cases hc : scoreKey y < scoreKey x
    · rw [if_pos hc]
      rcases List.mem_cons.mp (ih x) with h | h
      · rw [h]; exact List.mem_cons_self _ _
      · exact List.mem_cons_of_mem _ (List.mem_cons_of_mem _ h)
    · rw [if_neg hc]
      rcases List.mem_cons.mp (ih y) with h | h
      · rw [h]; exact List.mem_cons_of_mem _ (List.mem_cons_self _ _)
      · exact List.mem_cons_of_mem _ (List.mem_cons_of_mem _ h)

/-- The element returned by `reduceMaxScore` is in the list. -/
theorem reduceMaxScore_mem (l : List ImgData) (img : ImgData)
    (h : reduceMaxScore l = some img) : img ∈ l := by
  cases l with
  | nil => simp [reduceMaxScore] at h
  | cons x xs =>
    simp only [reduceMaxScore, Option.some.injEq] at h
    exact h ▸ maxByScore_mem xs x

/-- An accepted URL starts with `http://` or `https://`. -/
theorem isValidImageUrl_startsWith (url : String) (h : isValidImageUrl url = true) :
    strStartsWith url "http://" = true ∨ strStartsWith url "https://" = true := by
  simp only [isValidImageUrl] at h
  split at h
  · exact absurd h (by decide)
  · split at h
    · exact absurd h (by decide)
    · next hcond =>
      cases hA : strStartsWith url "http://" with
      | true => exact Or.inl rfl
      | false => exact Or.inr (by simpa [hA] using hcond)

/-- A URL starting with `http://` or `https://` does not start with
`data:`. -/
theorem http_not_data (s : String)
    (h : strStartsWith s "http://" = true ∨ strStartsWith s "https://" = true) :
    strStartsWith s "data:" = false := by
  have hh : ("http://").data = ['h', 't', 't', 'p', ':', '/', '/'] := rfl
  have hhs : ("https://").data = ['h', 't', 't', 'p', 's', ':', '/', '/'] := rfl
  have hd : ("data:").data = ['d', 'a', 't', 'a', ':'] := rfl
  cases hs : s.data with
  | nil => rcases h with h | h <;> simp [strStartsWith, hs, hh, hhs, charsMatchAt] at h
  | cons c cs =>
    have hcchar : c = 'h' := by
      rcases h with h | h
      · obtain ⟨h1, _⟩ : _ ∧ _ := by
          simpa [strStartsWith, hs, hh, charsMatchAt] using h
        exact h1.symm
      · obtain ⟨h1, _⟩ : _ ∧ _ := by
          simpa [strStartsWith, hs, hhs, charsMatchAt] using h
        exact h1.symm
    simp [strStartsWith, hs, hd, charsMatchAt, hcchar]

/-- C10: every candidate returned by the combinedExtractor
`findTopLogo` has a strictly positive score and a URL accepted by
`isValidImageUrl`, hence an `http://`/`https://` URL — inline-SVG and
other `data:` URI candidates can never be selected. -/
theorem combinedSelectorHttpOnly (images : List ImgData) (siteName : String) (img : ImgData)
    (h : findTopLogoCombined images siteName = some img) :
    (∃ s, img.logoScore = some s ∧ 0 < s) ∧ isValidImageUrl img.url = true ∧
    (strStartsWith img.url "http://" = true ∨ strStartsWith img.url "https://" = true) ∧
    strStartsWith img.url "data:" = false := by
  have hmem : img ∈ images.filter (fun img => isViable img && isValidImageUrl img.url) := by
    simp only [findTopLogoCombined] at h
    split at h
    · exact absurd h (by simp)
    · split at h
      · next heq =>
        obtain rfl : _ = img := Option.some.injEq _ _ ▸ h
        split at heq
        · exact List.mem_of_mem_filter (reduceMaxScore_mem _ _ heq)
        · exact absurd heq (by simp)
      · split at h
        · next heq =>
          obtain rfl : _ = img := Option.some.injEq _ _ ▸ h
          split at heq
          · exact List.mem_of_find?_eq_some heq
          · exact absurd heq (by simp)
        · split at h
          · next heq =>
            obtain rfl : _ = img := Option.some.injEq _ _ ▸ h
            exact List.mem_of_mem_filter (reduceMaxScore_mem _ _ heq)
          · exact reduceMaxScore_mem _ _ h
  obtain ⟨_, hpred⟩ := List.mem_filter.mp hmem
  obtain ⟨hviable, hvalid⟩ : _ ∧ _ := by simpa using hpred
  have hscore : ∃ s, img.logoScore = some s ∧ 0 < s := by
    simp only [isViable] at hviable
    cases hls : img.logoScore with
    | none => rw [hls] at hviable; exact absurd hviable (by decide)
    | some s =>
      rw [hls] at hviable
      exact ⟨s, rfl, by simpa using hviable⟩
  have hstarts := isValidImageUrl_startsWith img.url hvalid
  exact ⟨hscore, hvalid, hstarts, http_not_data img.url hstarts⟩

/-- Concrete candidate list for the C10 witness: an HTTP logo and a
higher-scoring inline data-URI candidate. -/
def combinedWitnessImages : List ImgData :=
  [{ filename := "inline-svg.svg", url := "data:image/svg+xml;base64,TWFyaw==",
     source := "inline-svg", logoScore := some 90 },
   { filename := "acme-logo.png", url := "https://acme.com/images/acme-logo.png",
     pathname := some "/images/acme-logo.png", source := "img-tag", logoScore := some 10 }]

/-- Witness for C10: the selector returns the HTTP candidate, and the
theorem yields its positive score, URL validity and scheme facts. -/
theorem combinedSelectorHttpOnly_witness :
    (∃ s, (combinedWitnessImages.get ⟨1, by decide⟩).logoScore = some s ∧ 0 < s) ∧
    isValidImageUrl (combinedWitnessImages.get ⟨1, by decide⟩).url = true ∧
    (strStartsWith (combinedWitnessImages.get ⟨1, by decide⟩).url "http://" = true ∨
     strStartsWith (combinedWitnessImages.get ⟨1, by decide⟩).url "https://" = true) ∧
    strStartsWith (combinedWitnessImages.get ⟨1, by decide⟩).url "data:" = false :=
  combinedSelectorHttpOnly combinedWitnessImages "acme" _ (by decide)

/-- Witness for the C4 amended theorem: on `stripe.com` the matching
own-name token implies the site-identity flag. -/
theorem thirdPartyPenaltySuppression_witness :
    hasSiteName "stripe" stripePaypalBadge = true :=
  (thirdPartyPenaltySuppression "stripe" stripePaypalBadge).2.2 (by decide) (by decide)

/-- Harvest state for the C7 witness: one markup-scan sprite candidate
already holds the sprite-file URL. -/
def spriteWitnessState : HarvestState :=
  { imageList := [{ filename := "sprite.svg", url := "/icons/sprite.svg",
                    extension := "svg", source := "html-source-sprite",
                    logoScore := some 3 }],
    seenUrls := ["/icons/sprite.svg"] }

/-- `<use>` event for the C7 witness with a logo fragment. -/
def spriteWitnessEvent : SpriteEvent :=
  { rawHref := "/icons/sprite.svg#i-logo-fw", hasParentSvg := true,
    inHeaderCtx := false, inLogoClassCtx := false, meta := {} }

/-- Witness for C7: the logo-fragment sprite replaces the colliding
markup-scan entry. -/
theorem spriteReplaceRule_witness :
    (∃ x, spriteWitnessState.imageList[0]? = some x ∧
        spriteExistingPred (id (spriteFileUrl spriteWitnessEvent.rawHref)) x = true) ∧
    ∃ entry,
      (spriteStep (mkSiteCtx "https://acme.com/") id spriteWitnessState
          spriteWitnessEvent).imageList =
        spriteWitnessState.imageList.eraseIdx 0 ++ [entry] ∧
      entry.isLogoFragment = true ∧ entry.source = "svg-sprite" ∧
      entry.url = id (spriteFileUrl spriteWitnessEvent.rawHref) ∧
      entry.spriteFragment = some "i-logo-fw" :=
  spriteReplaceRule (mkSiteCtx "https://acme.com/") id spriteWitnessState
    spriteWitnessEvent "i-logo-fw" 0 (by decide) (by decide) (by decide) (by decide)
    (by decide) (by decide) (by decide) (by decide)
